import Mathlib

/-!
Shallow embedding of the orchestration core of the github-config-manager
repository (Python sources under src/): the status tracker and sequential
scheduler of src/core/main_processor.py, the log collector of src/logs.py,
the per-repository operation pipeline of src/core/github_operations.py, and
the empty-repository-list guard of src/main.py.

Python dicts are modelled as association lists with first-occurrence
semantics (a dict built from a list with duplicate keys keeps one entry per
key; lookup finds the unique entry; update rewrites it in place).  External
`gh` CLI calls are modelled by an oracle structure `GhWorld`; each embedded
operation additionally returns the list of external calls it issued, so that
"which calls were attempted" is observable in the model.
-/

/-- Association-list lookup, modelling `d[k]` / `d.get(k)` on a Python dict. -/
def alistLookup {α : Type} : List (String × α) → String → Option α
  | [], _ => none
  | (n, v) :: rest, key => if n = key then some v else alistLookup rest key

/-- Association-list in-place update of the (first) entry with the given key,
modelling `d[k] = f(d[k])` on a Python dict; absent keys leave the list
unchanged. -/
def alistModify {α : Type} : List (String × α) → String → (α → α) → List (String × α)
  | [], _, _ => []
  | (n, v) :: rest, key, f =>
    if n = key then (n, f v) :: rest else (n, v) :: alistModify rest key f

/-- Keep the first occurrence of each element, dropping later duplicates:
the key sequence a Python dict comprehension produces from a list with
duplicates. -/
def dedupFirstAux {α : Type} [DecidableEq α] (seen : List α) : List α → List α
  | [] => []
  | x :: xs => if x ∈ seen then dedupFirstAux seen xs else x :: dedupFirstAux (x :: seen) xs

def dedupFirst {α : Type} [DecidableEq α] (l : List α) : List α :=
  dedupFirstAux [] l

/-- The `status` field of a repository entry in `_repo_statuses`
(src/core/main_processor.py): one of the four lifecycle strings. -/
inductive Lifecycle
  | pending
  | in_progress
  | completed
  | failed
deriving DecidableEq, Repr

/-- One value of the `_repo_statuses` dict:
`{"success": bool, "status": str}`. -/
structure RepoStatus where
  success : Bool
  status : Lifecycle
deriving DecidableEq, Repr

/-- The module-level tracker state of src/core/main_processor.py:
`_repo_statuses` plus `_initial_total_repos_count`. -/
structure TrackerState where
  repo_statuses : List (String × RepoStatus)
  initial_total_repos_count : Nat
deriving DecidableEq, Repr

/-- `initialize_repository_statuses` (main_processor.py:274-284): every repo
maps to `{"success": False, "status": "pending"}`; the total count is the
length of the input list (duplicates collapse in the dict but still count
toward the total, as in the source). -/
def initialize_repository_statuses (repositories : List String) : TrackerState :=
  { repo_statuses := (dedupFirst repositories).map (fun r => (r, ⟨false, Lifecycle.pending⟩)),
    initial_total_repos_count := repositories.length }

/-- `set_repository_status` (main_processor.py:286-299): if the repo is
tracked, overwrite `success` and set `status` to `"completed"` or `"failed"`
according to `success`; otherwise warn and leave the map unchanged. -/
def set_repository_status (st : TrackerState) (repo_name : String) (success : Bool) : TrackerState :=
  match alistLookup st.repo_statuses repo_name with
  | some _ =>
    { st with repo_statuses := (alistModify st.repo_statuses repo_name
        (fun _ => ⟨success, if success then Lifecycle.completed else Lifecycle.failed⟩)) }
  | none => st

/-- `set_repository_in_progress` (main_processor.py:301-308): only when the
repo is tracked and its status is `"pending"` is the status set to
`"in_progress"`; in every other case the map is unchanged. -/
def set_repository_in_progress (st : TrackerState) (repo_name : String) : TrackerState :=
  match alistLookup st.repo_statuses repo_name with
  | some rs =>
    if rs.status = Lifecycle.pending then
      { st with repo_statuses := (alistModify st.repo_statuses repo_name
          (fun r => { r with status := Lifecycle.in_progress })) }
    else st
  | none => st

/-- `get_repository_overall_status` (main_processor.py:311-316). -/
def get_repository_overall_status (st : TrackerState) (repo_name : String) : Bool :=
  match alistLookup st.repo_statuses repo_name with
  | some rs => rs.success
  | none => false

/-- `get_current_progress_summary` (main_processor.py:318-334): the stored
total, the count of completed-or-failed entries, and the count of
in-progress entries. -/
def get_current_progress_summary (st : TrackerState) : Nat × Nat × Nat :=
  (st.initial_total_repos_count,
   st.repo_statuses.countP
     (fun p => decide (p.2.status = Lifecycle.completed ∨ p.2.status = Lifecycle.failed)),
   st.repo_statuses.countP (fun p => decide (p.2.status = Lifecycle.in_progress)))

theorem alistLookup_modify_self {α : Type} (m : List (String × α)) (key : String) (f : α → α) :
    alistLookup (alistModify m key f) key = (alistLookup m key).map f := by
  induction m with
  | nil => rfl
  | cons hd tl ih =>
    obtain ⟨n, v⟩ := hd
    by_cases h : n = key
    · simp [alistModify, alistLookup, h]
    · simp [alistModify, alistLookup, h, ih]

theorem alistLookup_modify_ne {α : Type} (m : List (String × α)) (key other : String)
    (f : α → α) (h : other ≠ key) :
    alistLookup (alistModify m key f) other = alistLookup m other := by
  induction m with
  | nil => rfl
  | cons hd tl ih =>
    obtain ⟨n, v⟩ := hd
    by_cases hk : n = key
    · subst hk
      have hno : ¬ n = other := fun hh => h hh.symm
      simp [alistModify, alistLookup, hno]
    · by_cases ho : n = other
      · subst ho
        simp [alistModify, alistLookup, hk]
      · simp [alistModify, alistLookup, hk, ho, ih]

theorem alistLookup_map_const {α : Type} (names : List String) (key : String) (d : α)
    (h : key ∈ names) :
    alistLookup (names.map (fun n => (n, d))) key = some d := by
  induction names with
  | nil => cases h
  | cons hd tl ih =>
    rcases List.mem_cons.mp h with rfl | htl
    · simp [alistLookup]
    · by_cases hk : hd = key
      · simp [alistLookup, hk]
      · simp [alistLookup, hk, ih htl]

theorem mem_dedupFirstAux {α : Type} [DecidableEq α] (l : List α) :
    ∀ (seen : List α) (a : α), a ∈ dedupFirstAux seen l ↔ a ∈ l ∧ a ∉ seen := by
  induction l with
  | nil => intro seen a; simp [dedupFirstAux]
  | cons x xs ih =>
    intro seen a
    by_cases hx : x ∈ seen
    · rw [dedupFirstAux, if_pos hx, ih]
      constructor
      · rintro ⟨ha, hs⟩; exact ⟨List.mem_cons_of_mem _ ha, hs⟩
      · rintro ⟨ha, hs⟩
        rcases List.mem_cons.mp ha with rfl | ha
        · exact absurd hx hs
        · exact ⟨ha, hs⟩
    · rw [dedupFirstAux, if_neg hx]
      constructor
      · intro h
        rcases List.mem_cons.mp h with rfl | h
        · exact ⟨List.mem_cons_self _ _, hx⟩
        · rcases (ih _ _).mp h with ⟨ha, hs⟩
          refine ⟨List.mem_cons_of_mem _ ha, fun hc => hs (List.mem_cons_of_mem _ hc)⟩
      · rintro ⟨ha, hs⟩
        rcases List.mem_cons.mp ha with rfl | ha
        · exact List.mem_cons_self _ _
        · by_cases hax : a = x
          · subst hax; exact List.mem_cons_self _ _
          · exact List.mem_cons_of_mem _
              ((ih _ _).mpr ⟨ha, fun hc => by
                rcases List.mem_cons.mp hc with h | h
                · exact hax h
                · exact hs h⟩)

theorem mem_dedupFirst {α : Type} [DecidableEq α] (l : List α) (a : α) :
    a ∈ dedupFirst l ↔ a ∈ l := by
  simp [dedupFirst, mem_dedupFirstAux]

theorem lookup_initialize (repositories : List String) (r : String) (h : r ∈ repositories) :
    alistLookup (initialize_repository_statuses repositories).repo_statuses r
      = some ⟨false, Lifecycle.pending⟩ := by
  exact alistLookup_map_const _ _ _ ((mem_dedupFirst _ _).mpr h)

/-- One external `gh` CLI call issued by the per-repository pipeline of
src/core/github_operations.py (only calls that mutate remote state are
recorded; list fetches are the oracle's inputs). -/
inductive GhCall
  | delete_secret (name : String)
  | delete_variable (name : String)
  | set_secret (name : String) (value : String)
  | set_variable (name : String) (value : String)
deriving DecidableEq, Repr

/-- Oracle for the external collaborator, fixed for one
`process_single_repository` call.  `existing_secrets1` / `existing_variables1`
are the name sets returned by the first `_log_and_fetch_existing_repo_items`
fetch (line 275); the `2` variants are the re-fetch after deletions
(line 309); `_get_existing_items_from_repo` folds its own failures into an
empty set, so a plain list models its result.  The `ok` functions tell
whether the corresponding `run_gh_command` invocation succeeds (`false`
models the exception path that the calling helper catches). -/
structure GhWorld where
  existing_secrets1 : List String
  existing_variables1 : List String
  existing_secrets2 : List String
  existing_variables2 : List String
  delete_secret_ok : String → Bool
  delete_variable_ok : String → Bool
  set_secret_ok : String → String → Bool
  set_variable_ok : String → String → Bool

/-- `delete_github_secret` (github_operations.py:127-137): always issues the
delete call; a raised error is caught and mapped to `False`. -/
def delete_github_secret (w : GhWorld) (secret_name : String) : Bool × List GhCall :=
  (w.delete_secret_ok secret_name, [GhCall.delete_secret secret_name])

/-- `delete_github_variable` (github_operations.py:139-149). -/
def delete_github_variable (w : GhWorld) (var_name : String) : Bool × List GhCall :=
  (w.delete_variable_ok var_name, [GhCall.delete_variable var_name])

/-- `set_github_secret` (github_operations.py:152-170): with `force` off and
the name already in the pre-fetched existing set, skip without any external
call and report success (the existing set holds names only, so no value is
ever compared); otherwise issue the set call, mapping a caught error to
`False`. -/
def set_github_secret (w : GhWorld) (secret_name secret_value : String)
    (force : Bool) (existing_secrets : List String) : Bool × List GhCall :=
  if ¬ force ∧ secret_name ∈ existing_secrets then (true, [])
  else (w.set_secret_ok secret_name secret_value, [GhCall.set_secret secret_name secret_value])

/-- `set_github_variable` (github_operations.py:173-191). -/
def set_github_variable (w : GhWorld) (var_name var_value : String)
    (force : Bool) (existing_variables : List String) : Bool × List GhCall :=
  if ¬ force ∧ var_name ∈ existing_variables then (true, [])
  else (w.set_variable_ok var_name var_value, [GhCall.set_variable var_name var_value])

/-- Run one traced step per list element, and-ing the successes and
concatenating the traces: the shape of every `for` loop in
`process_single_repository` (a failing item flips `overall_success` but the
loop continues with the remaining items). -/
def runCalls {α : Type} (step : α → Bool × List GhCall) : List α → Bool × List GhCall
  | [] => (true, [])
  | x :: xs => ((step x).1 && (runCalls step xs).1, (step x).2 ++ (runCalls step xs).2)

/-- `process_single_repository` (github_operations.py:247-341), with external
calls abstracted by `w` and the issued calls returned as a trace.  Python
iterates `set(request).intersection(existing)` in unspecified set order; the
model iterates the same set of names in first-occurrence order of the
request list.  Set requests are Python dicts, modelled as key-unique assoc
lists iterated in order.  Every helper used in the `try` body is total (each
catches its own exceptions and returns a bool), so the outer
`except`-return-`False` branch is unreachable in the model and the embedding
is a total function — the Python function likewise never propagates an
exception. -/
def process_single_repository (w : GhWorld)
    (delete_secrets_list delete_variables_list : List String)
    (secrets_to_set_dict variables_to_set_dict : List (String × String))
    (force : Bool) : Bool × List GhCall :=
  let secrets_to_actually_delete :=
    (dedupFirst delete_secrets_list).filter (fun n => decide (n ∈ w.existing_secrets1))
  let r1 := runCalls (fun n => delete_github_secret w n) secrets_to_actually_delete
  let variables_to_actually_delete :=
    (dedupFirst delete_variables_list).filter (fun n => decide (n ∈ w.existing_variables1))
  let r2 := runCalls (fun n => delete_github_variable w n) variables_to_actually_delete
  let r3 := runCalls
    (fun nv => set_github_secret w nv.1 nv.2 force w.existing_secrets2) secrets_to_set_dict
  let r4 := runCalls
    (fun nv => set_github_variable w nv.1 nv.2 force w.existing_variables2) variables_to_set_dict
  (r1.1 && r2.1 && r3.1 && r4.1, r1.2 ++ r2.2 ++ r3.2 ++ r4.2)

/-- Whether one recorded external call succeeded, according to the oracle. -/
def callOk (w : GhWorld) : GhCall → Bool
  | GhCall.delete_secret n => w.delete_secret_ok n
  | GhCall.delete_variable n => w.delete_variable_ok n
  | GhCall.set_secret n v => w.set_secret_ok n v
  | GhCall.set_variable n v => w.set_variable_ok n v

theorem mem_runCalls_trace {α : Type} (step : α → Bool × List GhCall) (l : List α) (c : GhCall) :
    c ∈ (runCalls step l).2 ↔ ∃ x ∈ l, c ∈ (step x).2 := by
  induction l with
  | nil => simp [runCalls]
  | cons x xs ih => simp [runCalls, ih]

theorem runCalls_fst_eq_all {α : Type} (w : GhWorld) (step : α → Bool × List GhCall)
    (hstep : ∀ x, (step x).1 = (step x).2.all (callOk w)) (l : List α) :
    (runCalls step l).1 = (runCalls step l).2.all (callOk w) := by
  induction l with
  | nil => simp [runCalls]
  | cons x xs ih => simp [runCalls, ih, hstep x, List.all_append]

theorem runCalls_trace_congr {α : Type} (step1 step2 : α → Bool × List GhCall)
    (hstep : ∀ x, (step1 x).2 = (step2 x).2) (l : List α) :
    (runCalls step1 l).2 = (runCalls step2 l).2 := by
  induction l with
  | nil => rfl
  | cons x xs ih => simp [runCalls, ih, hstep x]

/-- Environment of the sequential branch of `process_repositories`
(main_processor.py:184-214).  `stop_at i` is the value of
`config.stop_event.is_set()` observed at the top of iteration `i` (the flag
is written by the listener thread; the loop only reads it at this check).
`run_result i repo` is the boolean status recorded for iteration `i`: the
value returned by `single_repo_processor_func`, or `false` when that call
raised (the `except` branch records `False`). -/
structure SeqEnv where
  stop_at : Nat → Bool
  run_result : Nat → String → Bool

/-- The sequential `for` loop of `process_repositories`
(main_processor.py:186-214), tracking the tracker state and the list of
repositories actually dispatched, in order.  The `finally` block only
drains, prints and clears the log group of the repository just processed,
and the inter-repository `time.sleep` has no state effect, so neither
appears in the tracker-state model.  `set_repository_in_progress` is not
called anywhere in this branch. -/
def process_repositories_sequential_from (env : SeqEnv) :
    List String → Nat → TrackerState → TrackerState × List String
  | [], _, st => (st, [])
  | repo :: rest, i, st =>
    if env.stop_at i then (st, [])
    else
      ((process_repositories_sequential_from env rest (i + 1)
          (set_repository_status st repo (env.run_result i repo))).1,
       repo :: (process_repositories_sequential_from env rest (i + 1)
          (set_repository_status st repo (env.run_result i repo))).2)

/-- `process_repositories` in sequential mode (`config.max_workers == 1`):
initialize the tracker, then run the loop from index 0. -/
def process_repositories_sequential (env : SeqEnv) (repositories : List String) :
    TrackerState × List String :=
  process_repositories_sequential_from env repositories 0
    (initialize_repository_statuses repositories)

/-- Every tracker state the sequential loop passes through, from the state
at loop entry to the state after the last executed iteration. -/
def seqStatesFrom (env : SeqEnv) :
    List String → Nat → TrackerState → List TrackerState
  | [], _, st => [st]
  | repo :: rest, i, st =>
    if env.stop_at i then [st]
    else st :: seqStatesFrom env rest (i + 1)
      (set_repository_status st repo (env.run_result i repo))

/-- All tracker states of a sequential run, starting from initialization. -/
def seqStates (env : SeqEnv) (repositories : List String) : List TrackerState :=
  seqStatesFrom env repositories 0 (initialize_repository_statuses repositories)

/-- Outcome of `main` (src/main.py) after configuration is assembled. -/
inductive MainOutcome
  | exited_no_repositories
  | ran (final : TrackerState) (dispatched : List String)
deriving Repr

/-- The tail of `main` (src/main.py:69-93) for a sequential-mode run: if
`config.repositories` is empty (`if not config.repositories:`), the script
exits at line 72 — before `display_and_confirm_actions`, before the abort
listener starts, and before `process_repositories` is called; otherwise the
repositories are processed. -/
def main_run (env : SeqEnv) (repositories : List String) : MainOutcome :=
  if repositories = [] then MainOutcome.exited_no_repositories
  else
    MainOutcome.ran (process_repositories_sequential env repositories).1
      (process_repositories_sequential env repositories).2

/-- The state of `_all_group_logs` in src/logs.py: one ordered message list
per group name. -/
def initialize_log_collector (group_names : List String) : List (String × List String) :=
  (dedupFirst group_names).map (fun n => (n, []))

/-- `add_log_entry` (src/logs.py:26-58), restricted to its effect on
`_all_group_logs`: when `store` holds and the group is named and known, the
message is appended to that group's list; a `None` group, `store=False`, or
an unknown group only writes to the console (unknown groups also warn) and
leaves the stored state unchanged.  The `is_prompt` flag only controls the
trailing newline of console output and has no stored-state effect. -/
def add_log_entry (st : List (String × List String)) (group_name : Option String)
    (message : String) (store : Bool) : List (String × List String) :=
  match group_name with
  | some g =>
    if store then
      match alistLookup st g with
      | some _ => alistModify st g (fun logs => logs ++ [message])
      | none => st
    else st
  | none => st

/-- `get_group_log_entries` (src/logs.py:60-71): the group's list, or `[]`
for an unknown group. -/
def get_group_log_entries (st : List (String × List String)) (group_name : String) :
    List String :=
  (alistLookup st group_name).getD []

/-- `clear_group_log_entries` (src/logs.py:74-86): reset a known group's
list to empty; warn and do nothing for an unknown group. -/
def clear_group_log_entries (st : List (String × List String)) (group_name : String) :
    List (String × List String) :=
  match alistLookup st group_name with
  | some _ => alistModify st group_name (fun _ => [])
  | none => st

theorem lookup_set_repository_status_self (st : TrackerState) (repo : String) (b : Bool)
    (rs : RepoStatus) (h : alistLookup st.repo_statuses repo = some rs) :
    alistLookup (set_repository_status st repo b).repo_statuses repo
      = some ⟨b, if b then Lifecycle.completed else Lifecycle.failed⟩ := by
  simp [set_repository_status, h, alistLookup_modify_self]

theorem lookup_set_repository_status_ne (st : TrackerState) (repo other : String) (b : Bool)
    (h : other ≠ repo) :
    alistLookup (set_repository_status st repo b).repo_statuses other
      = alistLookup st.repo_statuses other := by
  unfold set_repository_status
  cases hl : alistLookup st.repo_statuses repo with
  | none => rfl
  | some rs => simp [alistLookup_modify_ne _ _ _ _ h]

theorem seq_dispatched_subset_take (env : SeqEnv) :
    ∀ (rest : List String) (i k : Nat) (st : TrackerState),
      env.stop_at (i + k) = true →
      (process_repositories_sequential_from env rest i st).2 ⊆ rest.take k := by
  intro rest
  induction rest with
  | nil => intro i k st _; simp [process_repositories_sequential_from]
  | cons repo tl ih =>
    intro i k st hk
    by_cases hstop : env.stop_at i = true
    · simp [process_repositories_sequential_from, hstop]
    · cases k with
      | zero => exact absurd (by simpa using hk) hstop
      | succ k2 =>
        have hk2 : env.stop_at (i + 1 + k2) = true := by
          have : i + 1 + k2 = i + (k2 + 1) := by omega
          rw [this]; exact hk
        have hsub := ih (i + 1) k2 (set_repository_status st repo (env.run_result i repo)) hk2
        intro a ha
        rw [process_repositories_sequential_from] at ha
        rw [if_neg hstop] at ha
        rcases List.mem_cons.mp ha with rfl | ha
        · exact List.mem_cons_self _ _
        · exact List.mem_cons_of_mem _ (hsub ha)

theorem seq_lookup_of_not_dispatched (env : SeqEnv) :
    ∀ (rest : List String) (i : Nat) (st : TrackerState) (r : String),
      r ∉ (process_repositories_sequential_from env rest i st).2 →
      alistLookup (process_repositories_sequential_from env rest i st).1.repo_statuses r
        = alistLookup st.repo_statuses r := by
  intro rest
  induction rest with
  | nil => intro i st r _; rfl
  | cons repo tl ih =>
    intro i st r hr
    by_cases hstop : env.stop_at i = true
    · simp [process_repositories_sequential_from, hstop]
    · rw [process_repositories_sequential_from, if_neg hstop] at hr ⊢
      have hrr : r ≠ repo := fun hh => hr (hh ▸ List.mem_cons_self _ _)
      have hr2 : r ∉ (process_repositories_sequential_from env tl (i + 1)
          (set_repository_status st repo (env.run_result i repo))).2 :=
        fun hc => hr (List.mem_cons_of_mem _ hc)
      rw [ih _ _ _ hr2, lookup_set_repository_status_ne _ _ _ _ hrr]

theorem mem_alistModify {α : Type} (m : List (String × α)) (key : String) (f : α → α)
    (p : String × α) (hp : p ∈ alistModify m key f) :
    p ∈ m ∨ ∃ q, q ∈ m ∧ p = (q.1, f q.2) := by
  induction m with
  | nil => cases hp
  | cons hd tl ih =>
    obtain ⟨n, v⟩ := hd
    by_cases hk : n = key
    · rw [alistModify, if_pos hk] at hp
      rcases List.mem_cons.mp hp with rfl | hp
      · exact Or.inr ⟨(n, v), List.mem_cons_self _ _, rfl⟩
      · exact Or.inl (List.mem_cons_of_mem _ hp)
    · rw [alistModify, if_neg hk] at hp
      rcases List.mem_cons.mp hp with rfl | hp
      · exact Or.inl (List.mem_cons_self _ _)
      · rcases ih hp with h | ⟨q, hq, rfl⟩
        · exact Or.inl (List.mem_cons_of_mem _ h)
        · exact Or.inr ⟨q, List.mem_cons_of_mem _ hq, rfl⟩

theorem set_status_no_in_progress (st : TrackerState) (repo : String) (b : Bool)
    (hst : ∀ p ∈ st.repo_statuses, p.2.status ≠ Lifecycle.in_progress) :
    ∀ p ∈ (set_repository_status st repo b).repo_statuses,
      p.2.status ≠ Lifecycle.in_progress := by
  intro p hp
  unfold set_repository_status at hp
  cases hl : alistLookup st.repo_statuses repo with
  | none => rw [hl] at hp; exact hst p hp
  | some rs =>
    rw [hl] at hp
    rcases mem_alistModify _ _ _ _ hp with h | ⟨q, _, rfl⟩
    · exact hst p h
    · cases b <;> simp

theorem initialize_no_in_progress (repositories : List String) :
    ∀ p ∈ (initialize_repository_statuses repositories).repo_statuses,
      p.2.status ≠ Lifecycle.in_progress := by
  intro p hp
  rcases List.mem_map.mp hp with ⟨r, _, rfl⟩
  simp

theorem seqStatesFrom_no_in_progress (env : SeqEnv) :
    ∀ (rest : List String) (i : Nat) (st : TrackerState),
      (∀ p ∈ st.repo_statuses, p.2.status ≠ Lifecycle.in_progress) →
      ∀ st2 ∈ seqStatesFrom env rest i st,
        ∀ p ∈ st2.repo_statuses, p.2.status ≠ Lifecycle.in_progress := by
  intro rest
  induction rest with
  | nil =>
    intro i st hst st2 hst2
    rw [seqStatesFrom] at hst2
    rcases List.mem_singleton.mp hst2 with rfl
    exact hst
  | cons repo tl ih =>
    intro i st hst st2 hst2
    rw [seqStatesFrom] at hst2
    by_cases hstop : env.stop_at i = true
    · rw [if_pos hstop] at hst2
      rcases List.mem_singleton.mp hst2 with rfl
      exact hst
    · rw [if_neg hstop] at hst2
      rcases List.mem_cons.mp hst2 with rfl | hst2
      · exact hst
      · exact ih _ _ (set_status_no_in_progress _ _ _ hst) _ hst2

theorem no_in_progress_summary_zero (st : TrackerState)
    (hst : ∀ p ∈ st.repo_statuses, p.2.status ≠ Lifecycle.in_progress) :
    (get_current_progress_summary st).2.2 = 0 := by
  unfold get_current_progress_summary
  simp only []
  rw [List.countP_eq_zero]
  intro p hp
  simpa using hst p hp

theorem sip_lookup_of_pending (st : TrackerState) (r : String) (rs : RepoStatus)
    (h : alistLookup st.repo_statuses r = some rs) (hp : rs.status = Lifecycle.pending) :
    alistLookup (set_repository_in_progress st r).repo_statuses r
      = some ⟨rs.success, Lifecycle.in_progress⟩ := by
  simp [set_repository_in_progress, h, hp, alistLookup_modify_self]

theorem sip_noop_of_not_pending (st : TrackerState) (r : String) (rs : RepoStatus)
    (h : alistLookup st.repo_statuses r = some rs) (hp : rs.status ≠ Lifecycle.pending) :
    set_repository_in_progress st r = st := by
  simp [set_repository_in_progress, h, hp]

theorem sip_noop_of_none (st : TrackerState) (r : String)
    (h : alistLookup st.repo_statuses r = none) :
    set_repository_in_progress st r = st := by
  simp [set_repository_in_progress, h]

/-- C6: `set_repository_in_progress` moves a tracked repository from
`pending` to `in_progress` (preserving its `success` flag), is a no-op in
every non-pending lifecycle state and for untracked repositories, and is
idempotent — two consecutive calls equal one, so a repository taken from
`pending` by a first call is left at `in_progress` by a second. -/
theorem claim_C6_in_progress_transition (st : TrackerState) (r : String) :
    (∀ rs : RepoStatus, alistLookup st.repo_statuses r = some rs →
       rs.status = Lifecycle.pending →
       alistLookup (set_repository_in_progress st r).repo_statuses r
         = some ⟨rs.success, Lifecycle.in_progress⟩) ∧
    (∀ rs : RepoStatus, alistLookup st.repo_statuses r = some rs →
       rs.status ≠ Lifecycle.pending → set_repository_in_progress st r = st) ∧
    (alistLookup st.repo_statuses r = none → set_repository_in_progress st r = st) ∧
    set_repository_in_progress (set_repository_in_progress st r) r
      = set_repository_in_progress st r := by
  refine ⟨fun rs h hp => sip_lookup_of_pending st r rs h hp,
          fun rs h hp => sip_noop_of_not_pending st r rs h hp,
          fun h => sip_noop_of_none st r h, ?_⟩
  cases hl : alistLookup st.repo_statuses r with
  | none => rw [sip_noop_of_none st r hl, sip_noop_of_none st r hl]
  | some rs =>
    by_cases hp : rs.status = Lifecycle.pending
    · exact sip_noop_of_not_pending _ r ⟨rs.success, Lifecycle.in_progress⟩
        (sip_lookup_of_pending st r rs hl hp) (by simp)
    · rw [sip_noop_of_not_pending st r rs hl hp, sip_noop_of_not_pending st r rs hl hp]

/-- Witness for C6 at a concrete one-repository tracker. -/
theorem claim_C6_witness :
    alistLookup (set_repository_in_progress
        (initialize_repository_statuses ["r1"]) "r1").repo_statuses "r1"
      = some ⟨false, Lifecycle.in_progress⟩ :=
  (claim_C6_in_progress_transition (initialize_repository_statuses ["r1"]) "r1").1
    ⟨false, Lifecycle.pending⟩ (by decide) (by decide)

/-- C5: for a tracked repository, `set_repository_status r true` followed by
`set_repository_status r false` ends with `success = false` and lifecycle
`failed`: the second result overwrites the first, which is never blocking. -/
theorem claim_C5_markResult_last_write_wins (st : TrackerState) (r : String)
    (rs : RepoStatus) (h : alistLookup st.repo_statuses r = some rs) :
    alistLookup (set_repository_status (set_repository_status st r true) r false).repo_statuses r
      = some ⟨false, Lifecycle.failed⟩ := by
  have h1 := lookup_set_repository_status_self st r true rs h
  have h2 := lookup_set_repository_status_self _ r false _ h1
  simpa using h2

/-- Witness for C5 at a concrete one-repository tracker. -/
theorem claim_C5_witness :
    alistLookup (set_repository_status (set_repository_status
        (initialize_repository_statuses ["r1"]) "r1" true) "r1" false).repo_statuses "r1"
      = some ⟨false, Lifecycle.failed⟩ :=
  claim_C5_markResult_last_write_wins _ "r1" ⟨false, Lifecycle.pending⟩ (by decide)

/-- C1 as stated is false on the code: `set_repository_status` overwrites
unconditionally, so a repository whose lifecycle is already terminal
(`completed` after a `true` result) is moved to the other terminal state
(`failed`) by a later `false` result — its lifecycle does not stay
unchanged. -/
theorem claim_C1_counterexample :
    (alistLookup (set_repository_status
        (initialize_repository_statuses ["r1"]) "r1" true).repo_statuses "r1").map
        RepoStatus.status = some Lifecycle.completed ∧
    (alistLookup (set_repository_status (set_repository_status
        (initialize_repository_statuses ["r1"]) "r1" true) "r1" false).repo_statuses "r1").map
        RepoStatus.status = some Lifecycle.failed := by
  constructor <;> decide

/-- C1 amended: once a tracked repository's lifecycle is terminal
(`completed` or `failed`), `set_repository_in_progress` leaves the tracker
unchanged, and any further `set_repository_status` call leaves the lifecycle
inside the terminal set (it may switch between `completed` and `failed`, per
last-write-wins, but never returns to `pending` or `in_progress`). -/
theorem claim_C1_terminal_stays_terminal (st : TrackerState) (r : String) (rs : RepoStatus)
    (h : alistLookup st.repo_statuses r = some rs)
    (hterm : rs.status = Lifecycle.completed ∨ rs.status = Lifecycle.failed) (b : Bool) :
    set_repository_in_progress st r = st ∧
    ∃ rs2 : RepoStatus,
      alistLookup (set_repository_status st r b).repo_statuses r = some rs2 ∧
      (rs2.status = Lifecycle.completed ∨ rs2.status = Lifecycle.failed) := by
  constructor
  · exact sip_noop_of_not_pending st r rs h (by rcases hterm with h1 | h1 <;> simp [h1])
  · exact ⟨_, lookup_set_repository_status_self st r b rs h, by cases b <;> simp⟩

/-- Witness for the amended C1 at a concrete terminal state. -/
theorem claim_C1_witness :
    set_repository_in_progress (set_repository_status
        (initialize_repository_statuses ["r1"]) "r1" true) "r1"
      = set_repository_status (initialize_repository_statuses ["r1"]) "r1" true ∧
    ∃ rs2 : RepoStatus,
      alistLookup (set_repository_status (set_repository_status
          (initialize_repository_statuses ["r1"]) "r1" true) "r1" false).repo_statuses "r1"
        = some rs2 ∧ (rs2.status = Lifecycle.completed ∨ rs2.status = Lifecycle.failed) :=
  claim_C1_terminal_stays_terminal _ "r1" ⟨true, Lifecycle.completed⟩ (by decide)
    (Or.inl rfl) false

theorem delete_secret_not_mem_set_secret (w : GhWorld) (a b : String) (force : Bool)
    (existing : List String) (n : String) :
    GhCall.delete_secret n ∉ (set_github_secret w a b force existing).2 := by
  unfold set_github_secret; split <;> simp

theorem delete_secret_not_mem_set_variable (w : GhWorld) (a b : String) (force : Bool)
    (existing : List String) (n : String) :
    GhCall.delete_secret n ∉ (set_github_variable w a b force existing).2 := by
  unfold set_github_variable; split <;> simp

theorem delete_variable_not_mem_set_secret (w : GhWorld) (a b : String) (force : Bool)
    (existing : List String) (n : String) :
    GhCall.delete_variable n ∉ (set_github_secret w a b force existing).2 := by
  unfold set_github_secret; split <;> simp

theorem delete_variable_not_mem_set_variable (w : GhWorld) (a b : String) (force : Bool)
    (existing : List String) (n : String) :
    GhCall.delete_variable n ∉ (set_github_variable w a b force existing).2 := by
  unfold set_github_variable; split <;> simp

/-- C2: the delete calls issued by `process_single_repository` are exactly
the names in the intersection of the requested delete list with the
existing-name set fetched for the repository; a requested name that does
not currently exist is never passed to a delete call.  Stated for secrets
and variables together. -/
theorem claim_C2_delete_intersection (w : GhWorld)
    (delete_secrets_list delete_variables_list : List String)
    (secrets_to_set_dict variables_to_set_dict : List (String × String)) (force : Bool) :
    (∀ n : String,
       GhCall.delete_secret n ∈ (process_single_repository w delete_secrets_list
           delete_variables_list secrets_to_set_dict variables_to_set_dict force).2
         ↔ n ∈ delete_secrets_list ∧ n ∈ w.existing_secrets1) ∧
    (∀ n : String,
       GhCall.delete_variable n ∈ (process_single_repository w delete_secrets_list
           delete_variables_list secrets_to_set_dict variables_to_set_dict force).2
         ↔ n ∈ delete_variables_list ∧ n ∈ w.existing_variables1) := by
  constructor <;> intro n <;>
    simp [process_single_repository, mem_runCalls_trace, delete_github_secret,
      delete_github_variable, delete_secret_not_mem_set_secret,
      delete_secret_not_mem_set_variable, delete_variable_not_mem_set_secret,
      delete_variable_not_mem_set_variable, List.mem_filter, mem_dedupFirst]

/-- Oracle used by concrete witnesses: existing secrets and variables are
`X` and `Y` before deletion and `A` after, and every external call
succeeds. -/
def ghWorld0 : GhWorld :=
  { existing_secrets1 := ["X", "Y"], existing_variables1 := ["X", "Y"],
    existing_secrets2 := ["A"], existing_variables2 := ["A"],
    delete_secret_ok := fun _ => true, delete_variable_ok := fun _ => true,
    set_secret_ok := fun _ _ => true, set_variable_ok := fun _ _ => true }

/-- Witness for C2: with existing secrets `{X, Y}` and requested delete list
`[X, Z]`, a delete call is issued for `X` and never for `Z`. -/
theorem claim_C2_witness :
    GhCall.delete_secret "X" ∈ (process_single_repository ghWorld0
        ["X", "Z"] [] [] [] false).2 ∧
    GhCall.delete_secret "Z" ∉ (process_single_repository ghWorld0
        ["X", "Z"] [] [] [] false).2 :=
  ⟨((claim_C2_delete_intersection ghWorld0 ["X", "Z"] [] [] [] false).1 "X").mpr
      ⟨by decide, by decide⟩,
   fun h => absurd
     (((claim_C2_delete_intersection ghWorld0 ["X", "Z"] [] [] [] false).1 "Z").mp h).2
     (by decide)⟩

/-- C3: with `force` off and the name already in the existing set, no
external set call is issued and the result is success; with `force` on, or
the name absent, the set call is always issued.  Identical for secrets and
variables; the existing set carries names only, so no value comparison can
gate the skip. -/
theorem claim_C3_set_gating (w : GhWorld) (name value : String) (force : Bool)
    (existing : List String) :
    (force = false → name ∈ existing →
       set_github_secret w name value force existing = (true, []) ∧
       set_github_variable w name value force existing = (true, [])) ∧
    ((force = true ∨ name ∉ existing) →
       (set_github_secret w name value force existing).2
         = [GhCall.set_secret name value] ∧
       (set_github_variable w name value force existing).2
         = [GhCall.set_variable name value]) := by
  constructor
  · rintro rfl hmem
    exact ⟨by simp [set_github_secret, hmem], by simp [set_github_variable, hmem]⟩
  · intro h
    have hng : ¬ (force = false ∧ name ∈ existing) := by
      rcases h with h | h
      · simp [h]
      · intro hc; exact h hc.2
    exact ⟨by simp [set_github_secret, hng], by simp [set_github_variable, hng]⟩

/-- Witness for C3: with `force = false` and existing set `{A}`, setting `A`
is skipped as a success with no call, and setting `B` issues the call. -/
theorem claim_C3_witness :
    set_github_secret ghWorld0 "A" "v1" false ["A"] = (true, []) ∧
    (set_github_secret ghWorld0 "B" "v2" false ["A"]).2
      = [GhCall.set_secret "B" "v2"] :=
  ⟨((claim_C3_set_gating ghWorld0 "A" "v1" false ["A"]).1 rfl (by decide)).1,
   ((claim_C3_set_gating ghWorld0 "B" "v2" false ["A"]).2 (Or.inr (by decide))).1⟩

/-- C4: the embedding of `process_single_repository` is a total function —
every helper in the `try` body catches its own exceptions, and the outer
`except` converts anything else to a logged `False` return, so no exception
reaches the caller.  Its boolean result is `true` exactly when every
external call it issued succeeded (skipped items issue no call and count as
success), and the set of calls it issues does not depend on individual call
outcomes: an oracle in which some calls fail yields the same call trace as
one in which they succeed, so one item's failure never stops the remaining
items. -/
theorem claim_C4_result_aggregation (w w2 : GhWorld)
    (delete_secrets_list delete_variables_list : List String)
    (secrets_to_set_dict variables_to_set_dict : List (String × String)) (force : Bool)
    (h1 : w.existing_secrets1 = w2.existing_secrets1)
    (h2 : w.existing_variables1 = w2.existing_variables1)
    (h3 : w.existing_secrets2 = w2.existing_secrets2)
    (h4 : w.existing_variables2 = w2.existing_variables2) :
    ((process_single_repository w delete_secrets_list delete_variables_list
        secrets_to_set_dict variables_to_set_dict force).1 = true ↔
      ∀ c ∈ (process_single_repository w delete_secrets_list delete_variables_list
        secrets_to_set_dict variables_to_set_dict force).2, callOk w c = true) ∧
    (process_single_repository w delete_secrets_list delete_variables_list
        secrets_to_set_dict variables_to_set_dict force).2
      = (process_single_repository w2 delete_secrets_list delete_variables_list
        secrets_to_set_dict variables_to_set_dict force).2 := by
  have hd1 : ∀ x : String,
      (delete_github_secret w x).1 = (delete_github_secret w x).2.all (callOk w) := by
    intro x; simp [delete_github_secret, callOk]
  have hd2 : ∀ x : String,
      (delete_github_variable w x).1 = (delete_github_variable w x).2.all (callOk w) := by
    intro x; simp [delete_github_variable, callOk]
  have hd3 : ∀ nv : String × String,
      (set_github_secret w nv.1 nv.2 force w.existing_secrets2).1
        = (set_github_secret w nv.1 nv.2 force w.existing_secrets2).2.all (callOk w) := by
    intro nv; unfold set_github_secret; split <;> simp [callOk]
  have hd4 : ∀ nv : String × String,
      (set_github_variable w nv.1 nv.2 force w.existing_variables2).1
        = (set_github_variable w nv.1 nv.2 force w.existing_variables2).2.all (callOk w) := by
    intro nv; unfold set_github_variable; split <;> simp [callOk]
  constructor
  · have key : (process_single_repository w delete_secrets_list delete_variables_list
        secrets_to_set_dict variables_to_set_dict force).1
        = (process_single_repository w delete_secrets_list delete_variables_list
          secrets_to_set_dict variables_to_set_dict force).2.all (callOk w) := by
      simp only [process_single_repository]
      rw [runCalls_fst_eq_all w _ hd1, runCalls_fst_eq_all w _ hd2,
        runCalls_fst_eq_all w _ hd3, runCalls_fst_eq_all w _ hd4,
        List.all_append, List.all_append, List.all_append, Bool.and_assoc, Bool.and_assoc]
    rw [key, List.all_eq_true]
  · have ht1 : ∀ x : String,
        (delete_github_secret w x).2 = (delete_github_secret w2 x).2 := fun _ => rfl
    have ht2 : ∀ x : String,
        (delete_github_variable w x).2 = (delete_github_variable w2 x).2 := fun _ => rfl
    have ht3 : ∀ nv : String × String,
        (set_github_secret w nv.1 nv.2 force w2.existing_secrets2).2
          = (set_github_secret w2 nv.1 nv.2 force w2.existing_secrets2).2 := by
      intro nv; unfold set_github_secret; split <;> rfl
    have ht4 : ∀ nv : String × String,
        (set_github_variable w nv.1 nv.2 force w2.existing_variables2).2
          = (set_github_variable w2 nv.1 nv.2 force w2.existing_variables2).2 := by
      intro nv; unfold set_github_variable; split <;> rfl
    simp only [process_single_repository]
    rw [h1, h2, h3, h4, runCalls_trace_congr _ _ ht1, runCalls_trace_congr _ _ ht2,
      runCalls_trace_congr _ _ ht3, runCalls_trace_congr _ _ ht4]

/-- Oracle identical to `ghWorld0` except that every external call fails. -/
def ghWorld1 : GhWorld :=
  { ghWorld0 with
    delete_secret_ok := fun _ => false, delete_variable_ok := fun _ => false,
    set_secret_ok := fun _ _ => false, set_variable_ok := fun _ _ => false }

/-- Witness for C4 at a concrete input: the success-iff holds, and the
all-failing oracle issues the same calls as the all-succeeding one. -/
theorem claim_C4_witness :
    ((process_single_repository ghWorld0 ["X", "Z"] [] [("A", "v1"), ("B", "v2")] []
        false).1 = true ↔
      ∀ c ∈ (process_single_repository ghWorld0 ["X", "Z"] [] [("A", "v1"), ("B", "v2")] []
        false).2, callOk ghWorld0 c = true) ∧
    (process_single_repository ghWorld0 ["X", "Z"] [] [("A", "v1"), ("B", "v2")] []
        false).2
      = (process_single_repository ghWorld1 ["X", "Z"] [] [("A", "v1"), ("B", "v2")] []
        false).2 :=
  claim_C4_result_aggregation ghWorld0 ghWorld1 ["X", "Z"] [] [("A", "v1"), ("B", "v2")] []
    false rfl rfl rfl rfl

/-- C7: in sequential mode, once the stop flag is observed set at the
dispatch check of iteration `k`, every repository at position `k` or later
is never dispatched by the run and ends (hence stays, as nothing else
mutates the tracker) with `success = false` and lifecycle `pending`. -/
theorem claim_C7_sequential_abort (env : SeqEnv) (repositories : List String) (k : Nat)
    (hk : env.stop_at k = true) (hnd : repositories.Nodup) (r : String)
    (hr : r ∈ repositories.drop k) :
    r ∉ (process_repositories_sequential env repositories).2 ∧
    alistLookup (process_repositories_sequential env repositories).1.repo_statuses r
      = some ⟨false, Lifecycle.pending⟩ := by
  have hk0 : env.stop_at (0 + k) = true := by simpa using hk
  have hsub := seq_dispatched_subset_take env repositories 0 k
    (initialize_repository_statuses repositories) hk0
  have hnotdisp : r ∉ (process_repositories_sequential_from env repositories 0
      (initialize_repository_statuses repositories)).2 := by
    intro hc
    exact (List.disjoint_take_drop hnd le_rfl) (hsub hc) hr
  refine ⟨hnotdisp, ?_⟩
  show alistLookup (process_repositories_sequential_from env repositories 0
      (initialize_repository_statuses repositories)).1.repo_statuses r = _
  rw [seq_lookup_of_not_dispatched env _ _ _ _ hnotdisp]
  exact lookup_initialize repositories r (List.drop_subset _ _ hr)

/-- Sequential environment whose stop flag becomes set from iteration 1 on
and whose repository runs all succeed. -/
def seqEnv0 : SeqEnv :=
  { stop_at := fun i => decide (1 ≤ i), run_result := fun _ _ => true }

/-- Witness for C7: the flag is set at the check before the second
repository, which is therefore never dispatched and stays pending. -/
theorem claim_C7_witness :
    "r2" ∉ (process_repositories_sequential seqEnv0 ["r1", "r2"]).2 ∧
    alistLookup (process_repositories_sequential seqEnv0 ["r1", "r2"]).1.repo_statuses "r2"
      = some ⟨false, Lifecycle.pending⟩ :=
  claim_C7_sequential_abort seqEnv0 ["r1", "r2"] 1 (by decide) (by decide) "r2" (by decide)

/-- C8: the run exits at the empty-repository-list guard exactly when the
repository list is empty, before any processing; and sequential processing
of an empty list dispatches no repository and tracks nothing. -/
theorem claim_C8_empty_repository_list (env : SeqEnv) (repositories : List String) :
    (main_run env repositories = MainOutcome.exited_no_repositories ↔ repositories = []) ∧
    (process_repositories_sequential env []).2 = [] ∧
    (process_repositories_sequential env []).1.repo_statuses = [] := by
  refine ⟨⟨?_, ?_⟩, rfl, rfl⟩
  · intro h
    by_contra hne
    rw [main_run, if_neg hne] at h
    cases h
  · intro h
    subst h
    rfl

/-- Witness for C8: the empty list exits before scheduling; a nonempty list
does not take the exit. -/
theorem claim_C8_witness :
    main_run seqEnv0 [] = MainOutcome.exited_no_repositories ∧
    main_run seqEnv0 ["r1"] ≠ MainOutcome.exited_no_repositories :=
  ⟨(claim_C8_empty_repository_list seqEnv0 []).1.mpr rfl,
   fun h => absurd ((claim_C8_empty_repository_list seqEnv0 ["r1"]).1.mp h) (by decide)⟩

theorem log_lookup_initialize (groups : List String) (g : String) (h : g ∈ groups) :
    alistLookup (initialize_log_collector groups) g = some [] :=
  alistLookup_map_const _ _ _ ((mem_dedupFirst _ _).mpr h)

theorem add_log_entry_lookup_self (st : List (String × List String)) (g m : String)
    (logs : List String) (h : alistLookup st g = some logs) :
    alistLookup (add_log_entry st (some g) m true) g = some (logs ++ [m]) := by
  simp [add_log_entry, h, alistLookup_modify_self]

theorem add_log_entry_lookup_ne (st : List (String × List String)) (g other m : String)
    (h : other ≠ g) :
    alistLookup (add_log_entry st (some g) m true) other = alistLookup st other := by
  unfold add_log_entry
  cases hl : alistLookup st g with
  | none => simp [hl]
  | some logs => simp [hl, alistLookup_modify_ne _ _ _ _ h]

/-- C9: starting from freshly initialized log groups, appending `m1` to
known group `A` and `m2` to a distinct known group `B`, in either order,
leaves exactly `[m1]` in `A` and `[m2]` in `B`: the appends commute and no
message lands in a group other than the one named in its call. -/
theorem claim_C9_log_isolation (groups : List String) (gA gB m1 m2 : String)
    (hA : gA ∈ groups) (hB : gB ∈ groups) (hAB : gA ≠ gB) :
    (get_group_log_entries (add_log_entry (add_log_entry (initialize_log_collector groups)
        (some gA) m1 true) (some gB) m2 true) gA = [m1] ∧
     get_group_log_entries (add_log_entry (add_log_entry (initialize_log_collector groups)
        (some gA) m1 true) (some gB) m2 true) gB = [m2]) ∧
    (get_group_log_entries (add_log_entry (add_log_entry (initialize_log_collector groups)
        (some gB) m2 true) (some gA) m1 true) gA = [m1] ∧
     get_group_log_entries (add_log_entry (add_log_entry (initialize_log_collector groups)
        (some gB) m2 true) (some gA) m1 true) gB = [m2]) := by
  have h0A := log_lookup_initialize groups gA hA
  have h0B := log_lookup_initialize groups gB hB
  constructor
  · have h1A : alistLookup (add_log_entry (initialize_log_collector groups)
        (some gA) m1 true) gA = some [m1] := by
      simpa using add_log_entry_lookup_self _ _ _ _ h0A
    have h1B : alistLookup (add_log_entry (initialize_log_collector groups)
        (some gA) m1 true) gB = some [] := by
      rw [add_log_entry_lookup_ne _ _ _ _ (Ne.symm hAB)]
      exact h0B
    constructor
    · simp only [get_group_log_entries]
      rw [add_log_entry_lookup_ne _ _ _ _ hAB, h1A]
      rfl
    · simp only [get_group_log_entries]
      rw [add_log_entry_lookup_self _ _ _ _ h1B]
      rfl
  · have h1B : alistLookup (add_log_entry (initialize_log_collector groups)
        (some gB) m2 true) gB = some [m2] := by
      simpa using add_log_entry_lookup_self _ _ _ _ h0B
    have h1A : alistLookup (add_log_entry (initialize_log_collector groups)
        (some gB) m2 true) gA = some [] := by
      rw [add_log_entry_lookup_ne _ _ _ _ hAB]
      exact h0A
    constructor
    · simp only [get_group_log_entries]
      rw [add_log_entry_lookup_self _ _ _ _ h1A]
      rfl
    · simp only [get_group_log_entries]
      rw [add_log_entry_lookup_ne _ _ _ _ (Ne.symm hAB), h1B]
      rfl

/-- Witness for C9 with concrete groups `A`, `B` and messages `m1`, `m2`. -/
theorem claim_C9_witness :
    (get_group_log_entries (add_log_entry (add_log_entry
        (initialize_log_collector ["A", "B"]) (some "A") "m1" true) (some "B") "m2" true) "A"
       = ["m1"] ∧
     get_group_log_entries (add_log_entry (add_log_entry
        (initialize_log_collector ["A", "B"]) (some "A") "m1" true) (some "B") "m2" true) "B"
       = ["m2"]) ∧
    (get_group_log_entries (add_log_entry (add_log_entry
        (initialize_log_collector ["A", "B"]) (some "B") "m2" true) (some "A") "m1" true) "A"
       = ["m1"] ∧
     get_group_log_entries (add_log_entry (add_log_entry
        (initialize_log_collector ["A", "B"]) (some "B") "m2" true) (some "A") "m1" true) "B"
       = ["m2"]) :=
  claim_C9_log_isolation ["A", "B"] "A" "B" "m1" "m2" (by decide) (by decide) (by decide)

/-- C10: every tracker state passed through by a sequential run — which
calls `set_repository_status` but never `set_repository_in_progress` — has
no entry with lifecycle `in_progress`, so the `in_progress` component of
`get_current_progress_summary` is `0` at every point of the run. -/
theorem claim_C10_sequential_never_in_progress (env : SeqEnv) (repositories : List String)
    (st : TrackerState) (hst : st ∈ seqStates env repositories) :
    (∀ p ∈ st.repo_statuses, p.2.status ≠ Lifecycle.in_progress) ∧
    (get_current_progress_summary st).2.2 = 0 := by
  have hinv := seqStatesFrom_no_in_progress env repositories 0
    (initialize_repository_statuses repositories)
    (initialize_no_in_progress repositories) st hst
  exact ⟨hinv, no_in_progress_summary_zero st hinv⟩

/-- Witness for C10 at the state reached after the first iteration of a
concrete sequential run. -/
theorem claim_C10_witness :
    (∀ p ∈ (set_repository_status (initialize_repository_statuses ["r1"])
        "r1" true).repo_statuses, p.2.status ≠ Lifecycle.in_progress) ∧
    (get_current_progress_summary (set_repository_status
        (initialize_repository_statuses ["r1"]) "r1" true)).2.2 = 0 :=
  claim_C10_sequential_never_in_progress seqEnv0 ["r1"]
    (set_repository_status (initialize_repository_statuses ["r1"]) "r1" true) (by decide)
